import Mathlib

/-!
Shallow embedding of the 1+1-dimensional Minkowski-spacetime toolkit
(`minkowski_simulator.py`).  Real-valued coordinates are modelled by `ℚ`
(the code only adds, subtracts, multiplies, divides and compares, so the
exact-rational model mirrors the source expressions verbatim), the
`ValueError` raises by `Except String`, and the injected random source by
an explicit stream `ℕ → ℚ` of its successive draws.  Rational division is
total in Lean (`q / 0 = 0`) whereas Python raises `ZeroDivisionError`; the
one place this matters (a negative tolerance passed to the intersection
solver) is noted at the corresponding theorem.
-/

namespace Minkowski

/-- Literal `1e-9`, the default `tol` of `classify_interval`. -/
def tol_e9 : ℚ := 1 / 1000000000

/-- Literal `1e-12`: the default `tol` of `intersection_time`, and the
boundary slack added to `t_end` by both time-stepping loops. -/
def tol_e12 : ℚ := 1 / 1000000000000

/-- Classification for spacetime separation (`IntervalType`). -/
inductive IntervalType where
  | TIMELIKE
  | SPACELIKE
  | NULL
  deriving DecidableEq

/-- A point in 1+1D spacetime (`Event`). -/
structure Event where
  t : ℚ
  x : ℚ
  label : String
  deriving DecidableEq

/-- Inertial world line in 1+1D spacetime (`WorldLine`), x(t) = x0 + v * (t - t0). -/
structure WorldLine where
  x0 : ℚ
  v : ℚ
  t0 : ℚ
  label : String
  deriving DecidableEq

/-- `WorldLine.position_at`: `self.x0 + self.v * (t - self.t0)`. -/
def WorldLine.position_at (w : WorldLine) (t : ℚ) : ℚ :=
  w.x0 + w.v * (t - w.t0)

/-- `WorldLine.event_at`: `Event(t=t, x=self.position_at(t), label=label or self.label)`.
Python string truthiness: `label or self.label` is `self.label` exactly when
`label` is the empty string. -/
def WorldLine.event_at (w : WorldLine) (t : ℚ) (label : String) : Event :=
  ⟨t, w.position_at t, if label = "" then w.label else label⟩

/-- `spacetime_interval_squared`: `(c * dt) ** 2 - dx ** 2` with
`dt = b.t - a.t`, `dx = b.x - a.x`. -/
def spacetime_interval_squared (a b : Event) (c : ℚ) : ℚ :=
  (c * (b.t - a.t)) ^ 2 - (b.x - a.x) ^ 2

/-- `classify_interval`: NULL when `abs(s2) <= tol`, else TIMELIKE when
`s2 > 0`, else SPACELIKE. -/
def classify_interval (a b : Event) (c tol : ℚ) : IntervalType :=
  let s2 := spacetime_interval_squared a b c
  if |s2| ≤ tol then IntervalType.NULL
  else if s2 > 0 then IntervalType.TIMELIKE
  else IntervalType.SPACELIKE

/-- `null_line_through`: raises `ValueError` unless `direction in (-1, 1)`,
else returns `WorldLine(x0=event.x, v=direction * c, t0=event.t, label=label)`. -/
def null_line_through (event : Event) (direction : ℤ) (c : ℚ) (label : String) :
    Except String WorldLine :=
  if direction = -1 ∨ direction = 1 then
    Except.ok ⟨event.x, (direction : ℚ) * c, event.t, label⟩
  else
    Except.error ("direction must be -1 or +1")

/-- `intersection_time`: `None` when `abs(a.v - b.v) <= tol`, else
`(b_const - a_const) / (a.v - b.v)` with `const = x0 - v * t0` on each line.
In Lean the division is total with `q / 0 = 0`; Python instead raises
`ZeroDivisionError` on the (only reachable when `tol < 0`) zero denominator. -/
def intersection_time (a b : WorldLine) (tol : ℚ) : Option ℚ :=
  let denom := a.v - b.v
  if |denom| ≤ tol then none
  else
    let a_const := a.x0 - a.v * a.t0
    let b_const := b.x0 - b.v * b.t0
    some ((b_const - a_const) / denom)

/-- `intersection_event`: evaluates `a.position_at` at the intersection time
(computed with the default tolerance `1e-12`), or `None`. -/
def intersection_event (a b : WorldLine) (label : String) : Option Event :=
  match intersection_time a b tol_e12 with
  | none => none
  | some t => some ⟨t, a.position_at t, label⟩

/-- `light_vs_rest_interaction`: null line through `light_start`, stationary
line at `rest_x` anchored at `light_start.t`, their intersection event, and
the causality filter `meet.t < light_start.t → None`. -/
def light_vs_rest_interaction (light_start : Event) (rest_x : ℚ)
    (light_direction : ℤ) (c : ℚ) : Except String (Option Event) :=
  match null_line_through light_start light_direction c ("photon") with
  | Except.error e => Except.error e
  | Except.ok light =>
    let rest : WorldLine := ⟨rest_x, 0, light_start.t, "rest-object"⟩
    match intersection_event light rest ("light-rest interaction") with
    | none => Except.ok none
    | some meet =>
      if meet.t < light_start.t then Except.ok none else Except.ok (some meet)

/-- C9: swapping the two events negates both Δt and Δx, so `s²` and hence
`classify_interval` are symmetric in their first two arguments. -/
theorem classify_interval_symm :
    ∀ (a b : Event) (c tol : ℚ),
      spacetime_interval_squared a b c = spacetime_interval_squared b a c ∧
      classify_interval a b c tol = classify_interval b a c tol := by
  intro a b c tol
  have hs : spacetime_interval_squared a b c = spacetime_interval_squared b a c := by
    unfold spacetime_interval_squared
    ring
  refine ⟨hs, ?_⟩
  unfold classify_interval
  rw [hs]

/-- Helper: the three branches of `classify_interval`, as threshold
comparisons on `s²`, valid for any nonnegative tolerance. -/
lemma classify_iff_aux (a b : Event) (c tol : ℚ) (htol : 0 ≤ tol) :
    (classify_interval a b c tol = IntervalType.NULL ↔
        |spacetime_interval_squared a b c| ≤ tol) ∧
    (classify_interval a b c tol = IntervalType.TIMELIKE ↔
        tol < spacetime_interval_squared a b c) ∧
    (classify_interval a b c tol = IntervalType.SPACELIKE ↔
        spacetime_interval_squared a b c < -tol) := by
  set s2 := spacetime_interval_squared a b c with hs2
  unfold classify_interval
  rw [← hs2]
  by_cases habs : |s2| ≤ tol
  · rw [abs_le] at habs
    simp only [if_pos (abs_le.mpr habs)]
    refine ⟨by simp [abs_le, habs], ?_, ?_⟩
    · simp only [iff_false_intro (by simp : ¬ IntervalType.NULL = IntervalType.TIMELIKE)]
      constructor
      · intro h
        cases h
      · intro h
        linarith [habs.2]
    · constructor
      · intro h
        cases h
      · intro h
        linarith [habs.1]
  · simp only [if_neg habs]
    rw [abs_le, not_and_or, not_le, not_le] at habs
    by_cases hpos : s2 > 0
    · simp only [if_pos hpos]
      refine ⟨?_, ?_, ?_⟩
      · constructor
        · intro h
          cases h
        · intro h
          rw [abs_le] at h
          rcases habs with h1 | h2
          · linarith [h.1]
          · linarith [h.2]
      · constructor
        · intro _
          rcases habs with h1 | h2
          · linarith
          · exact h2
        · intro _
          trivial
      · constructor
        · intro h
          cases h
        · intro h
          linarith
    · simp only [if_neg hpos]
      push_neg at hpos
      refine ⟨?_, ?_, ?_⟩
      · constructor
        · intro h
          cases h
        · intro h
          rw [abs_le] at h
          rcases habs with h1 | h2
          · linarith [h.1]
          · linarith [h.2]
      · constructor
        · intro h
          cases h
        · intro h
          linarith
      · constructor
        · intro _
          rcases habs with h1 | h2
          · linarith
          · linarith
        · intro _
          trivial

/-- C5: with a nonnegative tolerance, `classify_interval` returns NULL
exactly when `|s²| ≤ tol`, TIMELIKE exactly when `s² > tol`, and SPACELIKE
exactly when `s² < -tol`; the three cases are exhaustive and mutually
exclusive because the function returns exactly one of the three tags. -/
theorem classify_interval_cases :
    ∀ (a b : Event) (c tol : ℚ), 0 ≤ tol →
      ((classify_interval a b c tol = IntervalType.NULL ↔
          |spacetime_interval_squared a b c| ≤ tol) ∧
       (classify_interval a b c tol = IntervalType.TIMELIKE ↔
          tol < spacetime_interval_squared a b c) ∧
       (classify_interval a b c tol = IntervalType.SPACELIKE ↔
          spacetime_interval_squared a b c < -tol)) :=
  fun a b c tol htol => classify_iff_aux a b c tol htol

/-- Witness for `classify_interval_cases` at `a = Event(0,0)`, `b = Event(2,1)`,
`c = 1`, `tol = 1e-9`. -/
theorem classify_interval_cases_witness :
    (0 : ℚ) ≤ tol_e9 ∧
    ((classify_interval ⟨0, 0, ""⟩ ⟨2, 1, ""⟩ 1 tol_e9 = IntervalType.NULL ↔
        |spacetime_interval_squared ⟨0, 0, ""⟩ ⟨2, 1, ""⟩ 1| ≤ tol_e9) ∧
     (classify_interval ⟨0, 0, ""⟩ ⟨2, 1, ""⟩ 1 tol_e9 = IntervalType.TIMELIKE ↔
        tol_e9 < spacetime_interval_squared ⟨0, 0, ""⟩ ⟨2, 1, ""⟩ 1) ∧
     (classify_interval ⟨0, 0, ""⟩ ⟨2, 1, ""⟩ 1 tol_e9 = IntervalType.SPACELIKE ↔
        spacetime_interval_squared ⟨0, 0, ""⟩ ⟨2, 1, ""⟩ 1 < -tol_e9)) :=
  ⟨by norm_num [tol_e9],
   classify_interval_cases ⟨0, 0, ""⟩ ⟨2, 1, ""⟩ 1 tol_e9 (by norm_num [tol_e9])⟩

/-- C10: `event_at` returns the event at time `t` and position
`position_at t`, carrying the override label when it is non-empty and the
world line's own label otherwise (so an explicit empty override is ignored). -/
theorem event_at_label_spec :
    ∀ (w : WorldLine) (t : ℚ) (label : String),
      (w.event_at t label).t = t ∧
      (w.event_at t label).x = w.position_at t ∧
      (label ≠ "" → (w.event_at t label).label = label) ∧
      (w.event_at t ("")).label = w.label := by
  intro w t label
  refine ⟨rfl, rfl, ?_, by simp [WorldLine.event_at]⟩
  intro h
  simp [WorldLine.event_at, h]

/-- Witness for `event_at_label_spec`: a non-empty override is kept, the
default empty label falls back to the world line's label. -/
theorem event_at_label_spec_witness :
    ("zz" ≠ "" ∧ ((WorldLine.mk 1 2 3 "wl").event_at 5 "zz").label = "zz") ∧
    ((WorldLine.mk 1 2 3 "wl").event_at 5 "").label = "wl" :=
  ⟨⟨by decide, (event_at_label_spec ⟨1, 2, 3, "wl"⟩ 5 "zz").2.2.1 (by decide)⟩,
   (event_at_label_spec ⟨1, 2, 3, "wl"⟩ 5 "").2.2.2⟩

/-- Helper: for two events on a world line, `s²` factors as
`(c² - v²) · (t2 - t1)²`. -/
lemma interval_on_worldline (w : WorldLine) (t1 t2 c : ℚ) :
    spacetime_interval_squared (w.event_at t1 ("")) (w.event_at t2 ("")) c =
      (c ^ 2 - w.v ^ 2) * (t2 - t1) ^ 2 := by
  simp only [spacetime_interval_squared, WorldLine.event_at, WorldLine.position_at]
  ring

/-- C1 counterexample: the claim fails as stated.  First input: a world line
of speed 0 and times 0 and 1e-6 under the default tolerance 1e-9 — here
`s² = 1e-12` is inside the tolerance, so the code answers NULL although
`|v| < c` (the claim demands TIMELIKE).  Second input: `c = -2` — every
speed exceeds a negative `c`, yet the code answers TIMELIKE. -/
theorem classify_worldline_claim_cex :
    ((0 : ℚ) ≠ 1 / 1000000 ∧ |(WorldLine.mk 0 0 0 "").v| < 1 ∧
      classify_interval ((WorldLine.mk 0 0 0 "").event_at 0 "")
          ((WorldLine.mk 0 0 0 "").event_at (1 / 1000000) "") 1 tol_e9 ≠
        IntervalType.TIMELIKE) ∧
    ((0 : ℚ) ≠ 1 ∧ ¬ |(WorldLine.mk 0 1 0 "").v| < -2 ∧
      classify_interval ((WorldLine.mk 0 1 0 "").event_at 0 "")
          ((WorldLine.mk 0 1 0 "").event_at 1 "") (-2) tol_e9 =
        IntervalType.TIMELIKE) := by
  refine ⟨⟨by norm_num, by norm_num, ?_⟩, ⟨by norm_num, ?_, ?_⟩⟩
  · have h1 : classify_interval ((WorldLine.mk 0 0 0 "").event_at 0 "")
        ((WorldLine.mk 0 0 0 "").event_at (1 / 1000000) "") 1 tol_e9 = IntervalType.NULL := by
      norm_num [classify_interval, spacetime_interval_squared, WorldLine.event_at,
        WorldLine.position_at, tol_e9, abs_of_pos]
    rw [h1]
    simp
  · norm_num [abs_of_pos]
  · norm_num [classify_interval, spacetime_interval_squared, WorldLine.event_at,
      WorldLine.position_at, tol_e9]

/-- C1 (amended): for a world line of speed `v`, nonnegative `c`, distinct
times, and the pair not inside the NULL tolerance unless exactly lightlike
(that is, `|v| = c` or `(t2 - t1)² · |c² - v²| > 1e-9`), classification of
the two events is TIMELIKE iff `|v| < c`, NULL iff `|v| = c`, SPACELIKE iff
`|v| > c`. -/
theorem classify_worldline_amended :
    ∀ (w : WorldLine) (t1 t2 c : ℚ), t1 ≠ t2 → 0 ≤ c →
      (|w.v| = c ∨ tol_e9 < (t2 - t1) ^ 2 * |c ^ 2 - w.v ^ 2|) →
      ((classify_interval (w.event_at t1 ("")) (w.event_at t2 ("")) c tol_e9 =
          IntervalType.TIMELIKE ↔ |w.v| < c) ∧
       (classify_interval (w.event_at t1 ("")) (w.event_at t2 ("")) c tol_e9 =
          IntervalType.NULL ↔ |w.v| = c) ∧
       (classify_interval (w.event_at t1 ("")) (w.event_at t2 ("")) c tol_e9 =
          IntervalType.SPACELIKE ↔ c < |w.v|)) := by
  intro w t1 t2 c hne hc hcase
  have h9 : (0 : ℚ) < tol_e9 := by norm_num [tol_e9]
  have H := classify_iff_aux (w.event_at t1 ("")) (w.event_at t2 ("")) c tol_e9 h9.le
  have hs := interval_on_worldline w t1 t2 c
  rcases hcase with habs | htol
  · have hv2 : w.v ^ 2 = c ^ 2 := by rw [← sq_abs w.v, habs]
    have hs0 : spacetime_interval_squared (w.event_at t1 ("")) (w.event_at t2 ("")) c = 0 := by
      rw [hs, hv2]
      ring
    refine ⟨?_, ?_, ?_⟩
    · rw [H.2.1, hs0]
      constructor
      · intro h
        linarith
      · intro h
        rw [habs] at h
        exact absurd h (lt_irrefl c)
    · rw [H.1, hs0]
      simp [habs, h9.le]
    · rw [H.2.2, hs0]
      constructor
      · intro h
        linarith
      · intro h
        rw [habs] at h
        exact absurd h (lt_irrefl c)
  · have hq : (t2 - t1) ^ 2 > 0 := by
      have : t2 - t1 ≠ 0 := sub_ne_zero.mpr (Ne.symm hne)
      positivity
    have hvne : c ^ 2 - w.v ^ 2 ≠ 0 := by
      intro h0
      rw [h0] at htol
      simp at htol
      linarith
    rcases lt_or_gt_of_ne hvne with hlt | hgt
    · -- spacelike: v² > c²
      have habs2 : |c ^ 2 - w.v ^ 2| = -(c ^ 2 - w.v ^ 2) := abs_of_neg hlt
      have hs2neg : spacetime_interval_squared (w.event_at t1 ("")) (w.event_at t2 ("")) c <
          -tol_e9 := by
        rw [hs]
        rw [habs2] at htol
        nlinarith
      have hvgt : c < |w.v| := by
        nlinarith [sq_abs w.v, abs_nonneg w.v]
      refine ⟨?_, ?_, ?_⟩
      · rw [H.2.1]
        constructor
        · intro h
          linarith
        · intro h
          exact absurd h (not_lt.mpr hvgt.le)
      · rw [H.1]
        rw [abs_le]
        constructor
        · intro h
          linarith [h.1]
        · intro h
          rw [h] at hvgt
          exact absurd hvgt (lt_irrefl c)
      · rw [H.2.2]
        exact iff_of_true hs2neg hvgt
    · -- timelike: v² < c²
      have habs2 : |c ^ 2 - w.v ^ 2| = c ^ 2 - w.v ^ 2 := abs_of_pos hgt
      have hs2pos : tol_e9 <
          spacetime_interval_squared (w.event_at t1 ("")) (w.event_at t2 ("")) c := by
        rw [hs]
        rw [habs2] at htol
        nlinarith
      have hvlt : |w.v| < c := by
        nlinarith [sq_abs w.v, abs_nonneg w.v]
      refine ⟨?_, ?_, ?_⟩
      · rw [H.2.1]
        exact iff_of_true hs2pos hvlt
      · rw [H.1]
        rw [abs_le]
        constructor
        · intro h
          linarith [h.2]
        · intro h
          rw [h] at hvlt
          exact absurd hvlt (lt_irrefl c)
      · rw [H.2.2]
        constructor
        · intro h
          linarith
        · intro h
          exact absurd h (not_lt.mpr hvlt.le)

/-- Witness for `classify_worldline_amended`: speed 1/2, `c = 1`, times 0
and 1, well clear of the tolerance. -/
theorem classify_worldline_amended_witness :
    ((0 : ℚ) ≠ 1 ∧ (0 : ℚ) ≤ 1 ∧
      tol_e9 < ((1 : ℚ) - 0) ^ 2 * |(1 : ℚ) ^ 2 - (WorldLine.mk 0 (1/2) 0 "").v ^ 2|) ∧
    (classify_interval ((WorldLine.mk 0 (1/2) 0 "").event_at 0 "")
        ((WorldLine.mk 0 (1/2) 0 "").event_at 1 "") 1 tol_e9 =
      IntervalType.TIMELIKE ↔ |(WorldLine.mk 0 (1/2) 0 "").v| < 1) :=
  ⟨⟨by norm_num, by norm_num, by norm_num [tol_e9, abs_of_pos]⟩,
   (classify_worldline_amended ⟨0, 1/2, 0, ""⟩ 0 1 1 (by norm_num) (by norm_num)
      (Or.inr (by norm_num [tol_e9, abs_of_pos]))).1⟩

/-- C2 counterexample: with a negative tolerance and equal velocities the
parallel guard does not fire, so the code divides by zero: Python raises
`ZeroDivisionError` (in this ℚ model the division yields the junk value 0),
and no solution of `a.x0 + a.v(t - a.t0) = b.x0 + b.v(t - b.t0)` is
returned — the two lines are parallel and never meet. -/
theorem intersection_time_claim_cex :
    intersection_time ⟨0, 0, 0, ""⟩ ⟨1, 0, 0, ""⟩ (-1) = some 0 ∧
    ¬ ((WorldLine.mk 0 0 0 "").x0 + (WorldLine.mk 0 0 0 "").v * ((0 : ℚ) - (WorldLine.mk 0 0 0 "").t0) =
        (WorldLine.mk 1 0 0 "").x0 + (WorldLine.mk 1 0 0 "").v * ((0 : ℚ) - (WorldLine.mk 1 0 0 "").t0)) := by
  refine ⟨by norm_num [intersection_time, div_zero], by norm_num⟩

/-- C2 (amended): `intersection_time` is absent exactly when
`|a.v - b.v| ≤ tol`; otherwise it returns
`t = (b_const - a_const) / (a.v - b.v)` with `const = x0 - v·t0`, and when
additionally `tol ≥ 0` that `t` solves
`a.x0 + a.v(t - a.t0) = b.x0 + b.v(t - b.t0)` (for `tol < 0` the division
by zero can be reached and no solution exists). -/
theorem intersection_time_spec :
    ∀ (a b : WorldLine) (tol : ℚ),
      (intersection_time a b tol = none ↔ |a.v - b.v| ≤ tol) ∧
      (¬ |a.v - b.v| ≤ tol →
        intersection_time a b tol =
          some (((b.x0 - b.v * b.t0) - (a.x0 - a.v * a.t0)) / (a.v - b.v))) ∧
      (0 ≤ tol → ∀ t, intersection_time a b tol = some t →
        a.x0 + a.v * (t - a.t0) = b.x0 + b.v * (t - b.t0)) := by
  intro a b tol
  by_cases h : |a.v - b.v| ≤ tol
  · refine ⟨by simp [intersection_time, h], fun hc => absurd h hc, ?_⟩
    intro _ t ht
    simp [intersection_time, h] at ht
  · have hform : intersection_time a b tol =
        some (((b.x0 - b.v * b.t0) - (a.x0 - a.v * a.t0)) / (a.v - b.v)) := by
      simp [intersection_time, h]
    refine ⟨by simp [hform, h], fun _ => hform, ?_⟩
    intro htol t ht
    have hne : a.v - b.v ≠ 0 := by
      intro h0
      apply h
      rw [h0]
      simpa using htol
    rw [hform, Option.some.injEq] at ht
    rw [← ht]
    field_simp
    ring

/-- Witness for `intersection_time_spec`: line through 0 with speed 1 meets
the stationary line at 5 at time t = 5, which solves the affine equation. -/
theorem intersection_time_spec_witness :
    (0 : ℚ) ≤ tol_e12 ∧
    ((WorldLine.mk 0 1 0 "").x0 + (WorldLine.mk 0 1 0 "").v * ((5 : ℚ) - (WorldLine.mk 0 1 0 "").t0) =
      (WorldLine.mk 5 0 0 "").x0 + (WorldLine.mk 5 0 0 "").v * ((5 : ℚ) - (WorldLine.mk 5 0 0 "").t0)) :=
  ⟨by norm_num [tol_e12],
   (intersection_time_spec ⟨0, 1, 0, ""⟩ ⟨5, 0, 0, ""⟩ tol_e12).2.2
     (by norm_num [tol_e12]) 5 (by norm_num [intersection_time, tol_e12])⟩

/-- Time-stepping skeleton shared by both loops: the successive values of
`t` visited by `while t <= t_end + 1e-12: ... t += dt` (exact arithmetic,
so the accumulated `t` is `t_start + k·dt`). -/
def stepTimes (t_end dt : ℚ) (hdt : 0 < dt) (t : ℚ) : List ℚ :=
  if h : t ≤ t_end + tol_e12 then
    t :: stepTimes t_end dt hdt (t + dt)
  else []
termination_by (⌊(t_end + tol_e12 - t) / dt⌋ + 1).toNat
decreasing_by
  have hdt0 : dt ≠ 0 := ne_of_gt hdt
  have hq : (t_end + tol_e12 - (t + dt)) / dt = (t_end + tol_e12 - t) / dt - 1 := by
    field_simp
    ring
  rw [hq, Int.floor_sub_one]
  have h1 : (0 : ℤ) ≤ ⌊(t_end + tol_e12 - t) / dt⌋ :=
    Int.floor_nonneg.mpr (div_nonneg (by linarith) hdt.le)
  omega

/-- Loop body of `spontaneous_events` (lines 156-162 of the source): `k` is
the number of draws taken so far from the injected random stream, `idx` the
next emission index. -/
def spontLoop (w : WorldLine) (t_end dt p : ℚ) (rand : ℕ → ℚ) (label_pre : String)
    (hdt : 0 < dt) (t : ℚ) (k idx : ℕ) : List Event :=
  if h : t ≤ t_end + tol_e12 then
    if rand k < p then
      w.event_at t (label_pre ++ "-" ++ toString idx) ::
        spontLoop w t_end dt p rand label_pre hdt (t + dt) (k + 1) (idx + 1)
    else
      spontLoop w t_end dt p rand label_pre hdt (t + dt) (k + 1) idx
  else []
termination_by (⌊(t_end + tol_e12 - t) / dt⌋ + 1).toNat
decreasing_by
  all_goals
    have hdt0 : dt ≠ 0 := ne_of_gt hdt
    have hq : (t_end + tol_e12 - (t + dt)) / dt = (t_end + tol_e12 - t) / dt - 1 := by
      field_simp
      ring
    rw [hq, Int.floor_sub_one]
    have h1 : (0 : ℤ) ≤ ⌊(t_end + tol_e12 - t) / dt⌋ :=
      Int.floor_nonneg.mpr (div_nonneg (by linarith) hdt.le)
    omega

/-- `spontaneous_events`: validates `dt > 0` then
`0 <= probability_per_step <= 1`, then runs the loop from `t_start` with
draw counter and emission index 0. -/
def spontaneous_events (w : WorldLine) (t_start t_end dt p : ℚ) (rand : ℕ → ℚ)
    (label_pre : String) : Except String (List Event) :=
  if h : dt ≤ 0 then Except.error ("dt must be > 0")
  else if 0 ≤ p ∧ p ≤ 1 then
    Except.ok (spontLoop w t_end dt p rand label_pre (not_le.mp h) t_start 0 0)
  else Except.error ("probability_per_step must be in [0, 1]")

/-- Loop body of `conditional_simulation` (lines 184-189 of the source). -/
def condLoop (lines : List WorldLine) (t_end dt : ℚ) (pred : ℚ → List Event → Bool)
    (label : String) (hdt : 0 < dt) (t : ℚ) : List Event :=
  if h : t ≤ t_end + tol_e12 then
    let sample := lines.map fun w => w.event_at t w.label
    if pred t sample then
      ⟨t, (sample.map Event.x).sum / ((max 1 sample.length : ℕ) : ℚ), label⟩ ::
        condLoop lines t_end dt pred label hdt (t + dt)
    else
      condLoop lines t_end dt pred label hdt (t + dt)
  else []
termination_by (⌊(t_end + tol_e12 - t) / dt⌋ + 1).toNat
decreasing_by
  all_goals
    have hdt0 : dt ≠ 0 := ne_of_gt hdt
    have hq : (t_end + tol_e12 - (t + dt)) / dt = (t_end + tol_e12 - t) / dt - 1 := by
      field_simp
      ring
    rw [hq, Int.floor_sub_one]
    have h1 : (0 : ℤ) ≤ ⌊(t_end + tol_e12 - t) / dt⌋ :=
      Int.floor_nonneg.mpr (div_nonneg (by linarith) hdt.le)
    omega

/-- `conditional_simulation`: validates `dt > 0` then runs the loop from
`t_start`. -/
def conditional_simulation (worldlines : List WorldLine) (t_start t_end dt : ℚ)
    (pred : ℚ → List Event → Bool) (label : String) : Except String (List Event) :=
  if h : dt ≤ 0 then Except.error ("dt must be > 0")
  else Except.ok (condLoop worldlines t_end dt pred label (not_le.mp h) t_start)

/-- C4: `null_line_through` fails exactly when `direction` is not ±1,
`spontaneous_events` exactly when `dt ≤ 0` or `probability_per_step` is
outside [0, 1], `conditional_simulation` exactly when `dt ≤ 0`; in each
case the error is produced by the up-front validation, independently of the
random stream, predicate and remaining arguments (which the statement
quantifies over), and no other input makes these functions fail. -/
theorem invalid_argument_spec :
    (∀ (e : Event) (d : ℤ) (c : ℚ) (l : String),
      (∃ msg, null_line_through e d c l = Except.error msg) ↔ ¬(d = -1 ∨ d = 1)) ∧
    (∀ (w : WorldLine) (t_start t_end dt p : ℚ) (rand : ℕ → ℚ) (l : String),
      (∃ msg, spontaneous_events w t_start t_end dt p rand l = Except.error msg) ↔
        (dt ≤ 0 ∨ ¬(0 ≤ p ∧ p ≤ 1))) ∧
    (∀ (ws : List WorldLine) (t_start t_end dt : ℚ)
        (pred : ℚ → List Event → Bool) (l : String),
      (∃ msg, conditional_simulation ws t_start t_end dt pred l = Except.error msg) ↔
        dt ≤ 0) := by
  refine ⟨?_, ?_, ?_⟩
  · intro e d c l
    unfold null_line_through
    by_cases h : d = -1 ∨ d = 1
    · simp [h]
    · simp [h]
  · intro w t_start t_end dt p rand l
    unfold spontaneous_events
    by_cases h : dt ≤ 0
    · simp [h]
    · by_cases hp : 0 ≤ p ∧ p ≤ 1
      · simp [h, hp]
      · simp [h, hp]
  · intro ws t_start t_end dt pred l
    unfold conditional_simulation
    by_cases h : dt ≤ 0
    · simp [h]
    · simp [h]

/-- Witness for `invalid_argument_spec`: `direction = 2` is rejected,
`dt = -1` is rejected by both loops, and each validation instance is the
stated equivalence. -/
theorem invalid_argument_spec_witness :
    ((∃ msg, null_line_through ⟨0, 0, ""⟩ 2 1 "l" = Except.error msg) ↔
      ¬((2 : ℤ) = -1 ∨ (2 : ℤ) = 1)) ∧
    ((∃ msg, spontaneous_events ⟨0, 0, 0, ""⟩ 0 1 (-1) (1/2) (fun _ => 0) "s" =
        Except.error msg) ↔ ((-1 : ℚ) ≤ 0 ∨ ¬((0 : ℚ) ≤ 1/2 ∧ (1/2 : ℚ) ≤ 1))) ∧
    ((∃ msg, conditional_simulation [] 0 1 (-1) (fun _ _ => true) "c" =
        Except.error msg) ↔ (-1 : ℚ) ≤ 0) :=
  ⟨invalid_argument_spec.1 ⟨0, 0, ""⟩ 2 1 "l",
   invalid_argument_spec.2.1 ⟨0, 0, 0, ""⟩ 0 1 (-1) (1/2) (fun _ => 0) "s",
   invalid_argument_spec.2.2 [] 0 1 (-1) (fun _ _ => true) "c"⟩

set_option maxHeartbeats 1000000 in
/-- C3: for a valid direction, `light_vs_rest_interaction` returns absent
exactly when the intersection of the null line and the stationary line is
absent or happens strictly before `light_start.t`, and otherwise returns
that intersection event; in particular, from `Event(0,0)` toward `rest_x=5`
with `direction=+1, c=1` the result is the event `t=5, x=5`, and with
`direction=-1` it is absent. -/
theorem light_vs_rest_spec :
    (∀ (ls : Event) (rest_x : ℚ) (d : ℤ) (c : ℚ), d = -1 ∨ d = 1 →
      ((light_vs_rest_interaction ls rest_x d c = Except.ok none ↔
          (intersection_event ⟨ls.x, (d : ℚ) * c, ls.t, "photon"⟩
              ⟨rest_x, 0, ls.t, "rest-object"⟩ ("light-rest interaction") = none ∨
           ∃ e, intersection_event ⟨ls.x, (d : ℚ) * c, ls.t, "photon"⟩
              ⟨rest_x, 0, ls.t, "rest-object"⟩ ("light-rest interaction") = some e ∧
             e.t < ls.t)) ∧
       (∀ e, intersection_event ⟨ls.x, (d : ℚ) * c, ls.t, "photon"⟩
              ⟨rest_x, 0, ls.t, "rest-object"⟩ ("light-rest interaction") = some e →
          ¬ e.t < ls.t → light_vs_rest_interaction ls rest_x d c =
            Except.ok (some e)))) ∧
    light_vs_rest_interaction ⟨0, 0, ""⟩ 5 1 1 =
      Except.ok (some ⟨5, 5, "light-rest interaction"⟩) ∧
    light_vs_rest_interaction ⟨0, 0, ""⟩ 5 (-1) 1 = Except.ok none := by
  have hred : ∀ (ls : Event) (rest_x : ℚ) (d : ℤ) (c : ℚ), d = -1 ∨ d = 1 →
      light_vs_rest_interaction ls rest_x d c =
        Option.elim (intersection_event ⟨ls.x, (d : ℚ) * c, ls.t, "photon"⟩
            ⟨rest_x, 0, ls.t, "rest-object"⟩ ("light-rest interaction"))
          (Except.ok none)
          (fun meet => if meet.t < ls.t then Except.ok none
            else Except.ok (some meet)) := by
    intro ls rest_x d c hd
    unfold light_vs_rest_interaction
    rw [null_line_through, if_pos hd]
    show (match intersection_event ⟨ls.x, (d : ℚ) * c, ls.t, "photon"⟩
        ⟨rest_x, 0, ls.t, "rest-object"⟩ ("light-rest interaction") with
      | none => Except.ok none
      | some meet =>
        if meet.t < ls.t then Except.ok none else Except.ok (some meet)) = _
    cases intersection_event ⟨ls.x, (d : ℚ) * c, ls.t, "photon"⟩
        ⟨rest_x, 0, ls.t, "rest-object"⟩ ("light-rest interaction") with
    | none => rfl
    | some meet => rfl
  refine ⟨?_, ?_, ?_⟩
  · intro ls rest_x d c hd
    rw [hred ls rest_x d c hd]
    obtain hE | ⟨meet, hE⟩ :
        intersection_event ⟨ls.x, (d : ℚ) * c, ls.t, "photon"⟩
            ⟨rest_x, 0, ls.t, "rest-object"⟩ ("light-rest interaction") = none ∨
        ∃ m, intersection_event ⟨ls.x, (d : ℚ) * c, ls.t, "photon"⟩
            ⟨rest_x, 0, ls.t, "rest-object"⟩ ("light-rest interaction") = some m := by
      cases intersection_event ⟨ls.x, (d : ℚ) * c, ls.t, "photon"⟩
          ⟨rest_x, 0, ls.t, "rest-object"⟩ ("light-rest interaction") with
      | none => exact Or.inl rfl
      | some m => exact Or.inr ⟨m, rfl⟩
    · rw [hE]
      refine ⟨iff_of_true rfl (Or.inl rfl), ?_⟩
      intro e he
      cases he
    · rw [hE]
      refine ⟨?_, ?_⟩
      · show (if meet.t < ls.t then Except.ok none else Except.ok (some meet)) =
            Except.ok none ↔ _
        by_cases hlt : meet.t < ls.t
        · rw [if_pos hlt]
          exact iff_of_true rfl (Or.inr ⟨meet, rfl, hlt⟩)
        · rw [if_neg hlt]
          constructor
          · intro h
            cases h
          · rintro (h | ⟨e, he, helt⟩)
            · cases h
            · rw [Option.some.injEq] at he
              rw [← he] at helt
              exact absurd helt hlt
      · intro e he hnlt
        rw [Option.some.injEq] at he
        subst he
        show (if meet.t < ls.t then Except.ok none else Except.ok (some meet)) =
            Except.ok (some meet)
        rw [if_neg hnlt]
  · have hc : ¬ |((1 : ℤ) : ℚ) * 1 - (0 : ℚ)| ≤ tol_e12 := by
      norm_num [tol_e12]
    have h1 : intersection_time ⟨(0 : ℚ), ((1 : ℤ) : ℚ) * 1, (0 : ℚ), "photon"⟩
        ⟨5, 0, (0 : ℚ), "rest-object"⟩ tol_e12 = some 5 := by
      show (if |((1 : ℤ) : ℚ) * 1 - (0 : ℚ)| ≤ tol_e12 then none
        else some ((5 - (0 : ℚ) * 0 - ((0 : ℚ) - ((1 : ℤ) : ℚ) * 1 * 0)) /
          (((1 : ℤ) : ℚ) * 1 - 0))) = some 5
      rw [if_neg hc]
      norm_num
    have h2 : intersection_event ⟨(0 : ℚ), ((1 : ℤ) : ℚ) * 1, (0 : ℚ), "photon"⟩
        ⟨5, 0, (0 : ℚ), "rest-object"⟩ ("light-rest interaction") =
          some ⟨5, 5, "light-rest interaction"⟩ := by
      simp only [intersection_event, h1]
      norm_num [WorldLine.position_at]
    rw [hred ⟨0, 0, ""⟩ 5 1 1 (Or.inr rfl)]
    show Option.elim (intersection_event ⟨(0 : ℚ), ((1 : ℤ) : ℚ) * 1, (0 : ℚ), "photon"⟩
        ⟨5, 0, (0 : ℚ), "rest-object"⟩ ("light-rest interaction"))
      (Except.ok none)
      (fun meet => if meet.t < (0 : ℚ) then Except.ok none else Except.ok (some meet)) = _
    rw [h2]
    show (if (Event.mk 5 5 "light-rest interaction").t < (0 : ℚ) then Except.ok none
      else Except.ok (some (Event.mk 5 5 "light-rest interaction"))) = _
    rw [if_neg (show ¬ (Event.mk 5 5 "light-rest interaction").t < (0 : ℚ) by norm_num)]
  · have hc : ¬ |((-1 : ℤ) : ℚ) * 1 - (0 : ℚ)| ≤ tol_e12 := by
      norm_num [tol_e12]
    have h1 : intersection_time ⟨(0 : ℚ), ((-1 : ℤ) : ℚ) * 1, (0 : ℚ), "photon"⟩
        ⟨5, 0, (0 : ℚ), "rest-object"⟩ tol_e12 = some (-5) := by
      show (if |((-1 : ℤ) : ℚ) * 1 - (0 : ℚ)| ≤ tol_e12 then none
        else some ((5 - (0 : ℚ) * 0 - ((0 : ℚ) - ((-1 : ℤ) : ℚ) * 1 * 0)) /
          (((-1 : ℤ) : ℚ) * 1 - 0))) = some (-5)
      rw [if_neg hc]
      norm_num
    have h2 : intersection_event ⟨(0 : ℚ), ((-1 : ℤ) : ℚ) * 1, (0 : ℚ), "photon"⟩
        ⟨5, 0, (0 : ℚ), "rest-object"⟩ ("light-rest interaction") =
          some ⟨-5, 5, "light-rest interaction"⟩ := by
      simp only [intersection_event, h1]
      norm_num [WorldLine.position_at]
    rw [hred ⟨0, 0, ""⟩ 5 (-1) 1 (Or.inl rfl)]
    show Option.elim (intersection_event ⟨(0 : ℚ), ((-1 : ℤ) : ℚ) * 1, (0 : ℚ), "photon"⟩
        ⟨5, 0, (0 : ℚ), "rest-object"⟩ ("light-rest interaction"))
      (Except.ok none)
      (fun meet => if meet.t < (0 : ℚ) then Except.ok none else Except.ok (some meet)) = _
    rw [h2]
    show (if (Event.mk (-5) 5 "light-rest interaction").t < (0 : ℚ) then Except.ok none
      else Except.ok (some (Event.mk (-5) 5 "light-rest interaction"))) = _
    rw [if_pos (show (Event.mk (-5) 5 "light-rest interaction").t < (0 : ℚ) by norm_num)]

/-- Witness for `light_vs_rest_spec`, applying the general clause at the
forward-`direction` scenario inputs. -/
theorem light_vs_rest_spec_witness :
    ((1 : ℤ) = -1 ∨ (1 : ℤ) = 1) ∧
    (light_vs_rest_interaction ⟨0, 0, ""⟩ 5 1 1 = Except.ok none ↔
      (intersection_event ⟨(0 : ℚ), (1 : ℚ) * 1, (0 : ℚ), "photon"⟩
          ⟨5, 0, (0 : ℚ), "rest-object"⟩ ("light-rest interaction") = none ∨
       ∃ e, intersection_event ⟨(0 : ℚ), (1 : ℚ) * 1, (0 : ℚ), "photon"⟩
          ⟨5, 0, (0 : ℚ), "rest-object"⟩ ("light-rest interaction") = some e ∧
         e.t < (0 : ℚ))) :=
  ⟨Or.inr rfl, (light_vs_rest_spec.1 ⟨0, 0, ""⟩ 5 1 1 (Or.inr rfl)).1⟩

/-- Predicate of the two-world-line scenario (the test's lambda
`abs(evs[0].x - evs[1].x) <= 0.5`). -/
def close_pred : ℚ → List Event → Bool := fun _t evs =>
  match evs with
  | ea :: eb :: _ => if |ea.x - eb.x| ≤ 1/2 then true else false
  | _ => false

/-- Helper: the conditional-simulation loop is the `filterMap` of the
per-step aggregation over the visited times. -/
lemma condLoop_eq (lines : List WorldLine) (t_end dt : ℚ)
    (pred : ℚ → List Event → Bool) (label : String) (hdt : 0 < dt) :
    ∀ t, condLoop lines t_end dt pred label hdt t =
      (stepTimes t_end dt hdt t).filterMap (fun tt =>
        let sample := lines.map fun w => w.event_at tt w.label
        if pred tt sample then
          some ⟨tt, (sample.map Event.x).sum / ((max 1 sample.length : ℕ) : ℚ), label⟩
        else none) := by
  intro t
  induction t using condLoop.induct lines t_end dt pred label hdt with
  | case1 t h sample hpred ih =>
    rw [condLoop, stepTimes]
    rw [dif_pos h, dif_pos h, List.filterMap_cons]
    simp [hpred, ih]
  | case2 t h sample hpred ih =>
    rw [condLoop, stepTimes]
    rw [dif_pos h, dif_pos h, List.filterMap_cons]
    simp [hpred, ih]
  | case3 t h =>
    rw [condLoop, stepTimes]
    rw [dif_neg h, dif_neg h]
    rfl

/-- C8: at each visited time every world line is sampled in the caller's
order, and one aggregate event `(t, centroid, label)` is emitted exactly
when the predicate holds of the samples, with
`centroid = (sum of sampled x) / max 1 (number of lines)`; in particular
the two-world-line scenario `a(x0=-1,v=1)`, `b(x0=1,v=-1)` over `[0,2]`
with `dt = 1/2` and predicate `|x_a - x_b| ≤ 1/2` yields exactly the one
aggregate event at `t = 1`. -/
theorem conditional_simulation_spec :
    (∀ (lines : List WorldLine) (t_start t_end dt : ℚ)
        (pred : ℚ → List Event → Bool) (label : String) (h : 0 < dt),
      conditional_simulation lines t_start t_end dt pred label =
        Except.ok ((stepTimes t_end dt h t_start).filterMap (fun tt =>
          let sample := lines.map fun w => w.event_at tt w.label
          if pred tt sample then
            some ⟨tt, (sample.map Event.x).sum / ((max 1 sample.length : ℕ) : ℚ), label⟩
          else none))) ∧
    conditional_simulation [⟨-1, 1, 0, "a"⟩, ⟨1, -1, 0, "b"⟩] 0 2 (1/2) close_pred
        "conditional" = Except.ok [⟨1, 0, "conditional"⟩] := by
  have hmain : ∀ (lines : List WorldLine) (t_start t_end dt : ℚ)
      (pred : ℚ → List Event → Bool) (label : String) (h : 0 < dt),
      conditional_simulation lines t_start t_end dt pred label =
        Except.ok ((stepTimes t_end dt h t_start).filterMap (fun tt =>
          let sample := lines.map fun w => w.event_at tt w.label
          if pred tt sample then
            some ⟨tt, (sample.map Event.x).sum / ((max 1 sample.length : ℕ) : ℚ), label⟩
          else none)) := by
    intro lines t_start t_end dt pred label h
    rw [conditional_simulation, dif_neg (not_le.mpr h)]
    rw [condLoop_eq lines t_end dt pred label (not_le.mp (not_le.mpr h)) t_start]
  refine ⟨hmain, ?_⟩
  rw [hmain [⟨-1, 1, 0, "a"⟩, ⟨1, -1, 0, "b"⟩] 0 2 (1/2) close_pred ("conditional")
    (by norm_num)]
  have hsteps : stepTimes 2 (1/2) (by norm_num : (0:ℚ) < 1/2) 0 =
      [0, 1/2, 1, 3/2, 2] := by
    rw [stepTimes, dif_pos (show (0:ℚ) ≤ 2 + tol_e12 by norm_num [tol_e12])]
    rw [stepTimes, dif_pos (show (0:ℚ) + 1/2 ≤ 2 + tol_e12 by norm_num [tol_e12])]
    rw [stepTimes, dif_pos (show (0:ℚ) + 1/2 + 1/2 ≤ 2 + tol_e12 by norm_num [tol_e12])]
    rw [stepTimes,
      dif_pos (show (0:ℚ) + 1/2 + 1/2 + 1/2 ≤ 2 + tol_e12 by norm_num [tol_e12])]
    rw [stepTimes,
      dif_pos (show (0:ℚ) + 1/2 + 1/2 + 1/2 + 1/2 ≤ 2 + tol_e12 by norm_num [tol_e12])]
    rw [stepTimes,
      dif_neg (show ¬ (0:ℚ) + 1/2 + 1/2 + 1/2 + 1/2 + 1/2 ≤ 2 + tol_e12 by
        norm_num [tol_e12])]
    norm_num
  rw [hsteps]
  norm_num [close_pred, WorldLine.event_at, WorldLine.position_at, List.filterMap_cons,
    abs_of_nonpos, abs_of_nonneg]

/-- Witness for `conditional_simulation_spec`, applying the general clause
at the scenario inputs. -/
theorem conditional_simulation_spec_witness :
    (0 : ℚ) < 1/2 ∧
    conditional_simulation [⟨-1, 1, 0, "a"⟩, ⟨1, -1, 0, "b"⟩] 0 2 (1/2) close_pred
        "conditional" =
      Except.ok ((stepTimes 2 (1/2) (by norm_num) 0).filterMap (fun tt =>
        let sample := [WorldLine.mk (-1) 1 0 "a", WorldLine.mk 1 (-1) 0 "b"].map
          fun w => w.event_at tt w.label
        if close_pred tt sample then
          some ⟨tt, (sample.map Event.x).sum / ((max 1 sample.length : ℕ) : ℚ),
            "conditional"⟩
        else none)) :=
  ⟨by norm_num,
   conditional_simulation_spec.1 [⟨-1, 1, 0, "a"⟩, ⟨1, -1, 0, "b"⟩] 0 2 (1/2)
     close_pred ("conditional") (by norm_num)⟩

/-- Helper: the stochastic loop keeps exactly the visited times whose draw
(the `k`-th stream element at the `k`-th step) is below `p`, labelling the
kept ones consecutively from `idx`. -/
lemma spontLoop_eq (w : WorldLine) (t_end dt p : ℚ) (rand : ℕ → ℚ)
    (label_pre : String) (hdt : 0 < dt) :
    ∀ (t : ℚ) (k idx : ℕ),
      spontLoop w t_end dt p rand label_pre hdt t k idx =
        List.mapIdx
          (fun i q => w.event_at q.2 (label_pre ++ "-" ++ toString (idx + i)))
          (((stepTimes t_end dt hdt t).enumFrom k).filter
            fun q => decide (rand q.1 < p)) := by
  intro t k idx
  induction t, k, idx using spontLoop.induct w t_end dt p rand label_pre hdt with
  | case1 t k idx h hr ih =>
    rw [spontLoop, stepTimes, dif_pos h, dif_pos h, if_pos hr, ih,
      List.enumFrom_cons, List.filter_cons]
    rw [if_pos (by simpa using hr)]
    have hfun : (fun i (q : ℕ × ℚ) =>
        w.event_at q.2 (label_pre ++ "-" ++ toString (idx + 1 + i))) =
        fun i q => w.event_at q.2 (label_pre ++ "-" ++ toString (idx + (i + 1))) := by
      funext i q
      have harr : idx + 1 + i = idx + (i + 1) := by omega
      rw [harr]
    rw [List.mapIdx_cons, hfun]
    simp
  | case2 t k idx h hr ih =>
    rw [spontLoop, stepTimes, dif_pos h, dif_pos h, if_neg hr, ih,
      List.enumFrom_cons, List.filter_cons]
    rw [if_neg (by simpa using hr)]
  | case3 t k idx h =>
    rw [spontLoop, stepTimes, dif_neg h, dif_neg h]
    simp

/-- Random stream for the witness scenario: draws 1 at steps 1 and 2,
otherwise 0, so that emissions happen at steps 0, 3, 4, 5 (times 0, 0.6,
0.8, 1.0), matching the seeded test. -/
def demo_rand : ℕ → ℚ := fun k => if k = 1 ∨ k = 2 then 1 else 0

/-- C7: with valid `dt` and probability, `spontaneous_events` visits the
times `t_start, t_start+dt, …` up to `t_end + 1e-12`, draws the `k`-th
stream element at the `k`-th step, keeps exactly the steps whose draw is
below `probability_per_step`, and labels the kept events
`label_pre-0, label_pre-1, …` in order of emission. -/
theorem spontaneous_events_spec :
    ∀ (w : WorldLine) (t_start t_end dt p : ℚ) (rand : ℕ → ℚ)
      (label_pre : String) (h1 : 0 < dt), 0 ≤ p → p ≤ 1 →
      spontaneous_events w t_start t_end dt p rand label_pre =
        Except.ok (List.mapIdx
          (fun i q => w.event_at q.2 (label_pre ++ "-" ++ toString i))
          (((stepTimes t_end dt h1 t_start).enum).filter
            fun q => decide (rand q.1 < p))) := by
  intro w t_start t_end dt p rand label_pre h1 hp0 hp1
  rw [spontaneous_events, dif_neg (not_le.mpr h1), if_pos ⟨hp0, hp1⟩]
  rw [spontLoop_eq w t_end dt p rand label_pre (not_le.mp (not_le.mpr h1)) t_start 0 0]
  rw [List.enum_eq_enumFrom]
  simp only [Nat.zero_add]

/-- Witness for `spontaneous_events_spec` at the seeded-test analogue:
world line `(x0=0, v=0.1)`, `t ∈ [0,1]`, `dt = 0.2`, `p = 0.5`, stream
`demo_rand`. -/
theorem spontaneous_events_spec_witness :
    (0 : ℚ) < 1/5 ∧ (0 : ℚ) ≤ 1/2 ∧ (1/2 : ℚ) ≤ 1 ∧
    spontaneous_events ⟨0, 1/10, 0, ""⟩ 0 1 (1/5) (1/2) demo_rand ("spontaneous") =
      Except.ok (List.mapIdx
        (fun i q => (WorldLine.mk 0 (1/10) 0 "").event_at q.2
          ("spontaneous" ++ "-" ++ toString i))
        (((stepTimes 1 (1/5) (by norm_num) 0).enum).filter
          fun q => decide (demo_rand q.1 < 1/2))) :=
  ⟨by norm_num, by norm_num, by norm_num,
   spontaneous_events_spec ⟨0, 1/10, 0, ""⟩ 0 1 (1/5) (1/2) demo_rand ("spontaneous")
     (by norm_num) (by norm_num) (by norm_num)⟩

/-- C6 counterexample: with `t_start = t_end = 0` and `dt = 1e-12` the loop
runs twice (both iterations emit with `p = 1`), exceeding the claimed bound
`(t_end - t_start)/dt + 1 = 1` — the `1e-12` slack added to `t_end` admits
one extra step. -/
theorem step_bound_claim_cex :
    spontaneous_events ⟨0, 0, 0, ""⟩ 0 0 tol_e12 1 (fun _ => 0) "s" =
      Except.ok [⟨0, 0, "s-0"⟩, ⟨tol_e12, 0, "s-1"⟩] ∧
    ¬ ((2 : ℚ) ≤ (0 - 0) / tol_e12 + 1) := by
  refine ⟨?_, by norm_num [tol_e12]⟩
  rw [spontaneous_events, dif_neg (by norm_num [tol_e12] : ¬ tol_e12 ≤ (0 : ℚ)),
    if_pos (by norm_num : (0 : ℚ) ≤ 1 ∧ (1 : ℚ) ≤ 1)]
  rw [spontLoop, dif_pos (show (0 : ℚ) ≤ 0 + tol_e12 by norm_num [tol_e12]),
    if_pos (show (fun _ : ℕ => (0 : ℚ)) 0 < 1 by norm_num)]
  rw [spontLoop, dif_pos (show (0 : ℚ) + tol_e12 ≤ 0 + tol_e12 by norm_num),
    if_pos (show (fun _ : ℕ => (0 : ℚ)) 1 < 1 by norm_num)]
  rw [spontLoop,
    dif_neg (show ¬ ((0 : ℚ) + tol_e12 + tol_e12 ≤ 0 + tol_e12) by norm_num [tol_e12])]
  norm_num [WorldLine.event_at, WorldLine.position_at]
  exact ⟨by decide, by decide⟩

/-- C6 (amended): every time-stepping loop (their shared skeleton
`stepTimes`) terminates, with at most `(t_end - t_start + 1e-12)/dt + 1`
iterations when `t_start ≤ t_end + 1e-12` and none otherwise (the source
bound `(t_end - t_start)/dt + 1` omits the boundary slack). -/
theorem step_bound_amended :
    ∀ (t_end dt t_start : ℚ) (h : 0 < dt),
      (t_start ≤ t_end + tol_e12 →
        ((stepTimes t_end dt h t_start).length : ℚ) ≤
          (t_end + tol_e12 - t_start) / dt + 1) ∧
      (¬ t_start ≤ t_end + tol_e12 → (stepTimes t_end dt h t_start).length = 0) := by
  intro t_end dt t_start h
  induction t_start using stepTimes.induct t_end dt h with
  | case1 t h1 ih =>
    refine ⟨fun _ => ?_, fun hc => absurd h1 hc⟩
    rw [stepTimes, dif_pos h1]
    rw [List.length_cons]
    push_cast
    have hkey : (t_end + tol_e12 - (t + dt)) / dt = (t_end + tol_e12 - t) / dt - 1 := by
      field_simp
      ring
    by_cases h2 : t + dt ≤ t_end + tol_e12
    · have hle := ih.1 h2
      rw [hkey] at hle
      linarith
    · rw [ih.2 h2]
      have hnn : (0 : ℚ) ≤ (t_end + tol_e12 - t) / dt :=
        div_nonneg (by linarith) h.le
      norm_num
      linarith
  | case2 t h1 =>
    refine ⟨fun hc => absurd hc h1, fun _ => ?_⟩
    rw [stepTimes, dif_neg h1]
    rfl

/-- Witness for `step_bound_amended`: `t ∈ [0,1]`, `dt = 1/2` gives 3
iterations, within the amended bound. -/
theorem step_bound_amended_witness :
    (0 : ℚ) < 1/2 ∧ (0 : ℚ) ≤ 1 + tol_e12 ∧
    ((stepTimes 1 (1/2) (by norm_num) 0).length : ℚ) ≤ (1 + tol_e12 - 0) / (1/2) + 1 :=
  ⟨by norm_num, by norm_num [tol_e12],
   (step_bound_amended 1 (1/2) 0 (by norm_num)).1 (by norm_num [tol_e12])⟩

end Minkowski
